import Mathlib

/-!
Verification of the ASL landmark classification pipeline
(`apps/ai-service/landmark_model.py`, class `ASLLandmarkModel`).

Numeric code is embedded over `ℝ` (exact real arithmetic in place of floats).
The opaque collaborators (the fitted scaler transform, the trained network's
forward pass, the fitted label classes) are fields of an explicit model state;
the repository's own logic (normalization, flattening, validation, argmax,
top-3 selection, confidence threshold, dataset loading, artifact loading) is
translated directly from the source.
-/

namespace SpellWithASL

open scoped Classical

/-- Coordinate `j` (0 ↦ x, 1 ↦ y, 2 ↦ z) of a landmark point triple. -/
def coordOf (p : ℝ × ℝ × ℝ) : ℕ → ℝ
  | 0 => p.1
  | 1 => p.2.1
  | _ => p.2.2

/-- Componentwise difference of two points. -/
def psub (p q : ℝ × ℝ × ℝ) : ℝ × ℝ × ℝ :=
  (p.1 - q.1, p.2.1 - q.2.1, p.2.2 - q.2.2)

/-- Euclidean norm of a 3-vector, `np.linalg.norm` on a length-3 array. -/
noncomputable def norm3 (p : ℝ × ℝ × ℝ) : ℝ :=
  Real.sqrt (p.1 ^ 2 + p.2.1 ^ 2 + p.2.2 ^ 2)

/-- Row-major flattening of a list of (x, y, z) points, as built by the
`feature_vector.extend([landmark["x"], landmark["y"], landmark["z"]])` loops
in `load_dataset` and `predict`. -/
def flattenPoints : List (ℝ × ℝ × ℝ) → List ℝ
  | [] => []
  | p :: ps => p.1 :: p.2.1 :: p.2.2 :: flattenPoints ps

/-- `normalize_hand_pose` (landmark_model.py lines 64-84) on the flat
63-feature vector: reshape to 21×3 (entry `3*i+j` is coordinate `j` of point
`i`, so the wrist coordinate paired with entry `k` is entry `k % 3`), subtract
the wrist point (index 0) from every point, compute the Euclidean norm of the
centered middle fingertip (point 12, flat entries 36..38), divide by it when
it is positive, and flatten back. -/
noncomputable def normalize_hand_pose (v : List ℝ) : List ℝ :=
  let coord : ℕ → ℝ := fun k => v.getD k 0
  let centered : ℕ → ℝ := fun k => coord k - coord (k % 3)
  let hand_size : ℝ :=
    Real.sqrt (centered 36 ^ 2 + centered 37 ^ 2 + centered 38 ^ 2)
  (List.range 63).map fun k =>
    if 0 < hand_size then centered k / hand_size else centered k

/-- Hand size of a 21-point sample: Euclidean distance from the wrist-centered
middle fingertip (point 12) to the origin. -/
noncomputable def handSize (pts : List (ℝ × ℝ × ℝ)) : ℝ :=
  norm3 (psub (pts.getD 12 (0, 0, 0)) (pts.getD 0 (0, 0, 0)))

/-- Raw hand size reported in `predict`'s `debug_info` (landmark_model.py
line 282): distance between raw points 12 and 0 of the un-normalized
feature vector. -/
noncomputable def rawHandSize (v : List ℝ) : ℝ :=
  Real.sqrt ((v.getD 36 0 - v.getD 0 0) ^ 2 + (v.getD 37 0 - v.getD 1 0) ^ 2 +
    (v.getD 38 0 - v.getD 2 0) ^ 2)

theorem flattenPoints_length (ps : List (ℝ × ℝ × ℝ)) :
    (flattenPoints ps).length = 3 * ps.length := by
  induction ps with
  | nil => rfl
  | cons p ps ih => simp [flattenPoints, ih]; ring

theorem flattenPoints_getD (ps : List (ℝ × ℝ × ℝ)) (i j : ℕ) (hi : i < ps.length)
    (hj : j < 3) :
    (flattenPoints ps).getD (3 * i + j) 0 = coordOf (ps.getD i (0, 0, 0)) j := by
  induction ps generalizing i with
  | nil => simp at hi
  | cons p ps ih =>
    cases i with
    | zero =>
      rcases j with _ | _ | _ | j
      · rfl
      · rfl
      · rfl
      · omega
    | succ i =>
      rw [show 3 * (i + 1) + j = 3 * i + j + 1 + 1 + 1 by ring]
      simp only [flattenPoints, List.getD_cons_succ]
      rw [ih i (by simpa using Nat.lt_of_succ_lt_succ (by simpa using hi))]

theorem normalize_hand_pose_length (v : List ℝ) :
    (normalize_hand_pose v).length = 63 := by
  simp [normalize_hand_pose]

theorem normalize_hand_pose_getD (v : List ℝ) (k : ℕ) (hk : k < 63) :
    (normalize_hand_pose v).getD k 0 =
      (let coord : ℕ → ℝ := fun k => v.getD k 0
       let centered : ℕ → ℝ := fun k => coord k - coord (k % 3)
       let hand_size : ℝ :=
         Real.sqrt (centered 36 ^ 2 + centered 37 ^ 2 + centered 38 ^ 2)
       if 0 < hand_size then centered k / hand_size else centered k) := by
  simp only [normalize_hand_pose, List.getD_eq_getElem?_getD, List.getElem?_map,
    List.getElem?_range, hk]
  rfl

theorem flatten_handSize (pts : List (ℝ × ℝ × ℝ)) (h : pts.length = 21) :
    Real.sqrt (((flattenPoints pts).getD 36 0 - (flattenPoints pts).getD (36 % 3) 0) ^ 2 +
        ((flattenPoints pts).getD 37 0 - (flattenPoints pts).getD (37 % 3) 0) ^ 2 +
        ((flattenPoints pts).getD 38 0 - (flattenPoints pts).getD (38 % 3) 0) ^ 2) =
      handSize pts := by
  have h36 : (flattenPoints pts).getD 36 0 = coordOf (pts.getD 12 (0, 0, 0)) 0 := by
    have hh := flattenPoints_getD pts 12 0 (by omega) (by norm_num)
    rwa [show 3 * 12 + 0 = 36 from rfl] at hh
  have h37 : (flattenPoints pts).getD 37 0 = coordOf (pts.getD 12 (0, 0, 0)) 1 := by
    have hh := flattenPoints_getD pts 12 1 (by omega) (by norm_num)
    rwa [show 3 * 12 + 1 = 37 from rfl] at hh
  have h38 : (flattenPoints pts).getD 38 0 = coordOf (pts.getD 12 (0, 0, 0)) 2 := by
    have hh := flattenPoints_getD pts 12 2 (by omega) (by norm_num)
    rwa [show 3 * 12 + 2 = 38 from rfl] at hh
  have h0 : (flattenPoints pts).getD 0 0 = coordOf (pts.getD 0 (0, 0, 0)) 0 := by
    have hh := flattenPoints_getD pts 0 0 (by omega) (by norm_num)
    rwa [show 3 * 0 + 0 = 0 from rfl] at hh
  have h1 : (flattenPoints pts).getD 1 0 = coordOf (pts.getD 0 (0, 0, 0)) 1 := by
    have hh := flattenPoints_getD pts 0 1 (by omega) (by norm_num)
    rwa [show 3 * 0 + 1 = 1 from rfl] at hh
  have h2 : (flattenPoints pts).getD 2 0 = coordOf (pts.getD 0 (0, 0, 0)) 2 := by
    have hh := flattenPoints_getD pts 0 2 (by omega) (by norm_num)
    rwa [show 3 * 0 + 2 = 2 from rfl] at hh
  rw [show (36 : ℕ) % 3 = 0 from rfl, show (37 : ℕ) % 3 = 1 from rfl,
    show (38 : ℕ) % 3 = 2 from rfl, h36, h37, h38, h0, h1, h2]
  rfl

/-- C1: on every 21-point input, the pose normalizer returns the 63-element
flattening, in input point order, of the wrist-centered points, each
coordinate divided by the Euclidean norm of the centered point at index 12
(the hand size) unless that norm is zero, in which case the centered values
pass through unscaled. -/
theorem normalize_hand_pose_spec (pts : List (ℝ × ℝ × ℝ)) (h : pts.length = 21) :
    (normalize_hand_pose (flattenPoints pts)).length = 63 ∧
    ∀ i : ℕ, i < 21 → ∀ j : ℕ, j < 3 →
      (normalize_hand_pose (flattenPoints pts)).getD (3 * i + j) 0 =
        (if handSize pts = 0 then
           coordOf (pts.getD i (0, 0, 0)) j - coordOf (pts.getD 0 (0, 0, 0)) j
         else
           (coordOf (pts.getD i (0, 0, 0)) j - coordOf (pts.getD 0 (0, 0, 0)) j) /
             handSize pts) := by
  constructor
  · exact normalize_hand_pose_length _
  intro i hi j hj
  have hk : 3 * i + j < 63 := by omega
  rw [normalize_hand_pose_getD _ _ hk]
  have hmod : (3 * i + j) % 3 = j := by omega
  have hcoord : ∀ a : ℕ, a < 21 → ∀ b : ℕ, b < 3 →
      (flattenPoints pts).getD (3 * a + b) 0 = coordOf (pts.getD a (0, 0, 0)) b := by
    intro a ha b hb
    exact flattenPoints_getD pts a b (h ▸ ha) hb
  have h36 : (flattenPoints pts).getD 36 0 = coordOf (pts.getD 12 (0, 0, 0)) 0 :=
    hcoord 12 (by norm_num) 0 (by norm_num)
  have h37 : (flattenPoints pts).getD 37 0 = coordOf (pts.getD 12 (0, 0, 0)) 1 :=
    hcoord 12 (by norm_num) 1 (by norm_num)
  have h38 : (flattenPoints pts).getD 38 0 = coordOf (pts.getD 12 (0, 0, 0)) 2 :=
    hcoord 12 (by norm_num) 2 (by norm_num)
  have h0 : (flattenPoints pts).getD 0 0 = coordOf (pts.getD 0 (0, 0, 0)) 0 :=
    hcoord 0 (by norm_num) 0 (by norm_num)
  have h1 : (flattenPoints pts).getD 1 0 = coordOf (pts.getD 0 (0, 0, 0)) 1 :=
    hcoord 0 (by norm_num) 1 (by norm_num)
  have h2 : (flattenPoints pts).getD 2 0 = coordOf (pts.getD 0 (0, 0, 0)) 2 :=
    hcoord 0 (by norm_num) 2 (by norm_num)
  have hhs := flatten_handSize pts h
  have hwrist : (flattenPoints pts).getD j 0 = coordOf (pts.getD 0 (0, 0, 0)) j := by
    have hw := hcoord 0 (by norm_num) j hj
    rwa [show 3 * 0 + j = j by ring] at hw
  simp only []
  rw [hmod, hcoord i hi j hj, hwrist, hhs]
  have hnn : 0 ≤ handSize pts := by
    unfold handSize norm3
    exact Real.sqrt_nonneg _
  by_cases hz : handSize pts = 0
  · rw [if_neg (by rw [hz]; exact lt_irrefl 0), if_pos hz]
  · rw [if_pos (lt_of_le_of_ne hnn (Ne.symm hz)), if_neg hz]

/-- Fixed 21-point sample used to instantiate the normalizer theorems: the
middle fingertip (index 12) sits at unit distance from the wrist. -/
def wpts : List (ℝ × ℝ × ℝ) :=
  [(0, 0, 0), (0, 0, 0), (0, 0, 0), (0, 0, 0), (0, 0, 0), (0, 0, 0), (0, 0, 0),
   (0, 0, 0), (0, 0, 0), (0, 0, 0), (0, 0, 0), (0, 0, 0), (1, 0, 0), (0, 0, 0),
   (0, 0, 0), (0, 0, 0), (0, 0, 0), (0, 0, 0), (0, 0, 0), (0, 0, 0), (0, 0, 0)]

theorem normalize_hand_pose_spec_witness :
    wpts.length = 21 ∧
    ((normalize_hand_pose (flattenPoints wpts)).length = 63 ∧
     ∀ i : ℕ, i < 21 → ∀ j : ℕ, j < 3 →
       (normalize_hand_pose (flattenPoints wpts)).getD (3 * i + j) 0 =
         (if handSize wpts = 0 then
            coordOf (wpts.getD i (0, 0, 0)) j - coordOf (wpts.getD 0 (0, 0, 0)) j
          else
            (coordOf (wpts.getD i (0, 0, 0)) j - coordOf (wpts.getD 0 (0, 0, 0)) j) /
              handSize wpts)) :=
  ⟨rfl, normalize_hand_pose_spec wpts rfl⟩

/-- Uniform positive scaling plus translation of a point, the raw-coordinate
transformation quantified over in the normalization-invariance property. -/
def affinePoint (s : ℝ) (t : ℝ × ℝ × ℝ) (p : ℝ × ℝ × ℝ) : ℝ × ℝ × ℝ :=
  (s * p.1 + t.1, s * p.2.1 + t.2.1, s * p.2.2 + t.2.2)

/-- C2 (amended): normalization is invariant under uniform translation and
positive scaling of the raw coordinates, for every sample whose hand size is
nonzero. (The degenerate hand-size-zero samples are excluded: there the
normalizer passes the centered values through unscaled, and centering commutes
with translation but not with scaling.) -/
theorem normalize_hand_pose_invariant (pts : List (ℝ × ℝ × ℝ)) (s : ℝ) (t : ℝ × ℝ × ℝ)
    (h : pts.length = 21) (hs : 0 < s) (hdeg : handSize pts ≠ 0) :
    normalize_hand_pose (flattenPoints (pts.map (affinePoint s t))) =
      normalize_hand_pose (flattenPoints pts) := by
  have hlen' : (pts.map (affinePoint s t)).length = 21 := by simpa using h
  have hmap : ∀ a : ℕ, a < 21 → ∀ b : ℕ, b < 3 →
      (flattenPoints (pts.map (affinePoint s t))).getD (3 * a + b) 0 =
        s * coordOf (pts.getD a (0, 0, 0)) b + coordOf t b := by
    intro a ha b hb
    have haa : a < pts.length := by omega
    rw [flattenPoints_getD _ a b (by omega) hb,
      List.getD_eq_getElem _ _ (by simpa using haa), List.getElem_map,
      List.getD_eq_getElem _ _ haa]
    rcases b with _ | _ | _ | b
    · rfl
    · rfl
    · rfl
    · omega
  -- centered coordinates of the transformed sample are `s` times the originals
  have hC : ∀ k : ℕ, k < 63 →
      (flattenPoints (pts.map (affinePoint s t))).getD k 0 -
        (flattenPoints (pts.map (affinePoint s t))).getD (k % 3) 0 =
      s * ((flattenPoints pts).getD k 0 - (flattenPoints pts).getD (k % 3) 0) := by
    intro k hk
    have hi : k / 3 < 21 := by omega
    have hj : k % 3 < 3 := Nat.mod_lt _ (by norm_num)
    have hd : 3 * (k / 3) + k % 3 = k := Nat.div_add_mod k 3
    have e1 := hmap (k / 3) hi (k % 3) hj
    rw [hd] at e1
    have e0 := hmap 0 (by norm_num) (k % 3) hj
    rw [show 3 * 0 + k % 3 = k % 3 by omega] at e0
    have f1 := flattenPoints_getD pts (k / 3) (k % 3) (by omega) hj
    rw [hd] at f1
    have f0 := flattenPoints_getD pts 0 (k % 3) (by omega) hj
    rw [show 3 * 0 + k % 3 = k % 3 by omega] at f0
    rw [e1, e0, f1, f0]
    ring
  have key : ∀ a b c : ℝ,
      Real.sqrt ((s * a) ^ 2 + (s * b) ^ 2 + (s * c) ^ 2) =
        s * Real.sqrt (a ^ 2 + b ^ 2 + c ^ 2) := by
    intro a b c
    rw [show (s * a) ^ 2 + (s * b) ^ 2 + (s * c) ^ 2 = s ^ 2 * (a ^ 2 + b ^ 2 + c ^ 2)
      by ring, Real.sqrt_mul (sq_nonneg s), Real.sqrt_sq hs.le]
  have hHpos : 0 < handSize pts := by
    have hnn : 0 ≤ handSize pts := by
      unfold handSize norm3
      exact Real.sqrt_nonneg _
    exact lt_of_le_of_ne hnn (Ne.symm hdeg)
  apply List.ext_getElem
    (by rw [normalize_hand_pose_length, normalize_hand_pose_length])
  intro n h1 h2
  have hn : n < 63 := by
    rw [normalize_hand_pose_length] at h1
    exact h1
  rw [← List.getD_eq_getElem _ 0 h1, ← List.getD_eq_getElem _ 0 h2,
    normalize_hand_pose_getD _ _ hn, normalize_hand_pose_getD _ _ hn]
  simp only []
  rw [hC 36 (by norm_num), hC 37 (by norm_num), hC 38 (by norm_num), hC n hn,
    key, flatten_handSize pts h,
    if_pos (mul_pos hs hHpos), if_pos hHpos,
    mul_div_mul_left _ _ (ne_of_gt hs)]

theorem normalize_hand_pose_invariant_witness :
    wpts.length = 21 ∧ (0 : ℝ) < 2 ∧ handSize wpts ≠ 0 ∧
    normalize_hand_pose (flattenPoints (wpts.map (affinePoint 2 (1, 1, 1)))) =
      normalize_hand_pose (flattenPoints wpts) := by
  have h1 : handSize wpts ≠ 0 := by
    have hv : handSize wpts = 1 := by
      show Real.sqrt (((1 : ℝ) - 0) ^ 2 + ((0 : ℝ) - 0) ^ 2 + ((0 : ℝ) - 0) ^ 2) = 1
      norm_num
    rw [hv]
    norm_num
  exact ⟨rfl, by norm_num, h1,
    normalize_hand_pose_invariant wpts 2 (1, 1, 1) rfl (by norm_num) h1⟩

/-- Degenerate 21-point sample: the middle fingertip coincides with the wrist
(hand size zero) while the point at index 1 does not. -/
def degPts : List (ℝ × ℝ × ℝ) :=
  [(0, 0, 0), (1, 0, 0), (0, 0, 0), (0, 0, 0), (0, 0, 0), (0, 0, 0), (0, 0, 0),
   (0, 0, 0), (0, 0, 0), (0, 0, 0), (0, 0, 0), (0, 0, 0), (0, 0, 0), (0, 0, 0),
   (0, 0, 0), (0, 0, 0), (0, 0, 0), (0, 0, 0), (0, 0, 0), (0, 0, 0), (0, 0, 0)]

/-- C2 counterexample: scaling the degenerate sample `degPts` by the positive
factor 2 (translation zero) changes the normalizer's output, refuting the
claim for arbitrary samples. -/
theorem normalize_hand_pose_not_invariant :
    ¬ (normalize_hand_pose (flattenPoints (degPts.map (affinePoint 2 (0, 0, 0)))) =
        normalize_hand_pose (flattenPoints degPts)) := by
  intro hEq
  have e36 : (flattenPoints degPts).getD 36 0 = 0 := rfl
  have e37 : (flattenPoints degPts).getD 37 0 = 0 := rfl
  have e38 : (flattenPoints degPts).getD 38 0 = 0 := rfl
  have e0 : (flattenPoints degPts).getD 0 0 = 0 := rfl
  have e1 : (flattenPoints degPts).getD 1 0 = 0 := rfl
  have e2 : (flattenPoints degPts).getD 2 0 = 0 := rfl
  have e3 : (flattenPoints degPts).getD 3 0 = 1 := rfl
  have f36 : (flattenPoints (degPts.map (affinePoint 2 (0, 0, 0)))).getD 36 0 = 0 := by
    show (2 : ℝ) * 0 + 0 = 0
    norm_num
  have f37 : (flattenPoints (degPts.map (affinePoint 2 (0, 0, 0)))).getD 37 0 = 0 := by
    show (2 : ℝ) * 0 + 0 = 0
    norm_num
  have f38 : (flattenPoints (degPts.map (affinePoint 2 (0, 0, 0)))).getD 38 0 = 0 := by
    show (2 : ℝ) * 0 + 0 = 0
    norm_num
  have f0 : (flattenPoints (degPts.map (affinePoint 2 (0, 0, 0)))).getD 0 0 = 0 := by
    show (2 : ℝ) * 0 + 0 = 0
    norm_num
  have f1 : (flattenPoints (degPts.map (affinePoint 2 (0, 0, 0)))).getD 1 0 = 0 := by
    show (2 : ℝ) * 0 + 0 = 0
    norm_num
  have f2 : (flattenPoints (degPts.map (affinePoint 2 (0, 0, 0)))).getD 2 0 = 0 := by
    show (2 : ℝ) * 0 + 0 = 0
    norm_num
  have f3 : (flattenPoints (degPts.map (affinePoint 2 (0, 0, 0)))).getD 3 0 = 2 := by
    show (2 : ℝ) * 1 + 0 = 2
    norm_num
  have hR : (normalize_hand_pose (flattenPoints degPts)).getD 3 0 = 1 := by
    rw [normalize_hand_pose_getD _ 3 (by norm_num)]
    simp only [Nat.reduceMod]
    rw [e36, e37, e38, e0, e1, e2, e3]
    norm_num [Real.sqrt_zero]
  have hL : (normalize_hand_pose
      (flattenPoints (degPts.map (affinePoint 2 (0, 0, 0))))).getD 3 0 = 2 := by
    rw [normalize_hand_pose_getD _ 3 (by norm_num)]
    simp only [Nat.reduceMod]
    rw [f36, f37, f38, f0, f1, f2, f3]
    norm_num [Real.sqrt_zero]
  rw [hEq, hR] at hL
  norm_num at hL

/-- State of an `ASLLandmarkModel` instance: `is_trained` flag, optional
network (modelled by its forward pass, scaled features to class
probabilities), optional fitted label classes (`label_encoder.classes_`,
index to letter), optional fitted scaler transform. -/
structure ModelState where
  is_trained : Bool
  model : Option (List ℝ → List ℝ)
  label_encoder : Option (List String)
  scaler : Option (List ℝ → List ℝ)

/-- The state set up by `__init__` (landmark_model.py lines 17-21). -/
def freshState : ModelState :=
  ⟨false, none, none, none⟩

/-- The dictionary returned by `predict`, with the fields that occur across
its return sites. -/
structure PredictResult where
  prediction : String
  confidence : ℝ
  error : Option String
  note : Option String
  top_predictions : Option (List (String × ℝ))
  debug_hand_size : Option ℝ

/-- An error-shaped result `{"prediction": "?", "confidence": 0.0,
"error": msg}`. -/
def errResult (msg : String) : PredictResult :=
  ⟨"?", 0, some msg, none, none, none⟩

/-- The two accepted input shapes of `predict`: a list of `{x, y, z}`
mappings, or a list of numeric lists. -/
inductive LandmarksInput where
  | dicts : List (ℝ × ℝ × ℝ) → LandmarksInput
  | lists : List (List ℝ) → LandmarksInput

/-- Flattening performed by `predict` (landmark_model.py lines 230-239).
`landmarks[0]` is inspected to pick the branch, so an empty input raises an
IndexError (caught by the blanket handler), modelled as `none`. -/
def flattenInput : LandmarksInput → Option (List ℝ)
  | .dicts [] => none
  | .lists [] => none
  | .dicts ps => some (flattenPoints ps)
  | .lists ls => some ls.flatten

/-- First index attaining the maximum of a list, `np.argmax` on a nonempty
array (scanning left to right, a later element wins only if strictly
greater). -/
noncomputable def argmaxIdx : List ℝ → ℕ
  | [] => 0
  | [_] => 0
  | x :: y :: xs =>
    let j := argmaxIdx (y :: xs)
    if x < (y :: xs).getD j 0 then j + 1 else 0

/-- Total order on positions of `v`: by value, ties by position. A stable
ascending sort of positions by value orders them exactly this way, which is
the deterministic model of `np.argsort`. -/
def leIdx (v : List ℝ) (i j : ℕ) : Prop :=
  v.getD i 0 < v.getD j 0 ∨ (v.getD i 0 = v.getD j 0 ∧ i ≤ j)

theorem leIdx_total (v : List ℝ) : ∀ i j : ℕ, leIdx v i j ∨ leIdx v j i := by
  intro i j
  rcases lt_trichotomy (v.getD i 0) (v.getD j 0) with h | h | h
  · exact Or.inl (Or.inl h)
  · rcases Nat.le_total i j with hij | hij
    · exact Or.inl (Or.inr ⟨h, hij⟩)
    · exact Or.inr (Or.inr ⟨h.symm, hij⟩)
  · exact Or.inr (Or.inl h)

theorem leIdx_trans (v : List ℝ) : ∀ i j k : ℕ,
    leIdx v i j → leIdx v j k → leIdx v i k := by
  intro i j k hij hjk
  rcases hij with h1 | ⟨h1, h1'⟩
  · rcases hjk with h2 | ⟨h2, _⟩
    · exact Or.inl (h1.trans h2)
    · exact Or.inl (h2 ▸ h1)
  · rcases hjk with h2 | ⟨h2, h2'⟩
    · exact Or.inl (h1 ▸ h2)
    · exact Or.inr ⟨h1.trans h2, h1'.trans h2'⟩

instance instIsTotalLeIdx (v : List ℝ) : IsTotal ℕ (leIdx v) :=
  ⟨leIdx_total v⟩

instance instIsTransLeIdx (v : List ℝ) : IsTrans ℕ (leIdx v) :=
  ⟨leIdx_trans v⟩

/-- `np.argsort(v)`: the positions `0..len(v)-1` sorted ascending by value,
equal values kept in position order (stable). -/
noncomputable def argsort (v : List ℝ) : List ℕ :=
  List.insertionSort (leIdx v) (List.range v.length)

/-- `np.argsort(predictions[0])[-3:][::-1]` (landmark_model.py line 257):
the last (up to) three positions of the ascending argsort, reversed. -/
noncomputable def topIndices (v : List ℝ) : List ℕ :=
  ((argsort v).drop ((argsort v).length - 3)).reverse

/-- The `top_3_predictions` loop (landmark_model.py lines 258-262): decode
each index through `label_encoder.inverse_transform` and pair it with its
probability. `inverse_transform` raises on an index outside the fitted
classes (caught by the blanket handler), modelled as `none`. -/
noncomputable def topPredictions (le : List String) (v : List ℝ) :
    Option (List (String × ℝ)) :=
  if (topIndices v).all (fun i => decide (i < le.length)) then
    some ((topIndices v).map fun i => (le.getD i "", v.getD i 0))
  else
    none

/-- `ASLLandmarkModel.predict` (landmark_model.py lines 223-287). The
guard, the two flattening branches, the length-63 validation, the
normalization, the scaler transform, the forward pass, argmax/confidence,
top-3 collection, the 0.5 confidence threshold, and the blanket exception
handler that converts any internal error into an error-shaped result. -/
noncomputable def predict (st : ModelState) (input : LandmarksInput) : PredictResult :=
  if st.is_trained = false ∨ st.model.isNone then
    errResult "Model not trained"
  else
    match flattenInput input with
    | none => errResult "list index out of range"
    | some feature_vector =>
      if feature_vector.length ≠ 63 then
        errResult ("Expected 63 features, got " ++ toString feature_vector.length)
      else
        match st.scaler with
        | none => errResult "NoneType object has no attribute transform"
        | some sc =>
          match st.model with
          | none => errResult "Model not trained"
          | some m =>
            let normalized_features := normalize_hand_pose feature_vector
            let probs := m (sc normalized_features)
            if probs.length = 0 then
              errResult "attempt to get argmax of an empty sequence"
            else
              let predicted_class := argmaxIdx probs
              let confidence := probs.getD predicted_class 0
              match st.label_encoder with
              | none => errResult "NoneType object is not iterable"
              | some le =>
                match topPredictions le probs with
                | none => errResult "y contains previously unseen labels"
                | some top_3_predictions =>
                  if confidence < 0.5 then
                    ⟨"?", confidence, none, some "Low confidence prediction",
                      some top_3_predictions, none⟩
                  else
                    ⟨le.getD predicted_class "", confidence, none, none,
                      some top_3_predictions, some (rawHandSize feature_vector)⟩

/-- One on-disk sample file as the loader sees it: `none` when reading or
parsing raises (malformed JSON, missing keys), otherwise the landmark
points. -/
abbrev SampleFile := Option (List (ℝ × ℝ × ℝ))

/-- The inner loop of `load_dataset` over one letter directory
(landmark_model.py lines 36-59): skip files that fail to parse, flatten the
landmarks of the rest, and keep exactly those whose flattened vector has
length 63, labelling them with the directory's letter. -/
def loadFiles (letter : String) : List SampleFile → List (List ℝ) × List String
  | [] => ([], [])
  | none :: rest => loadFiles letter rest
  | some lms :: rest =>
    let feature_vector := flattenPoints lms
    let r := loadFiles letter rest
    if feature_vector.length = 63 then
      (feature_vector :: r.1, letter :: r.2)
    else
      r

/-- `ASLLandmarkModel.load_dataset` (landmark_model.py lines 23-62) over the
parsed directory tree: one entry per letter subdirectory, carrying the
letter name and its sample files. -/
def load_dataset : List (String × List SampleFile) → List (List ℝ) × List String
  | [] => ([], [])
  | (letter, files) :: rest =>
    let a := loadFiles letter files
    let b := load_dataset rest
    (a.1 ++ b.1, a.2 ++ b.2)

/-- The typed failure of a training run: the dataset was empty. -/
inductive TrainError where
  | dataError : String → TrainError

/-- `ASLLandmarkModel.train` (landmark_model.py lines 152-221) up to its
only typed failure: load the dataset and raise `ValueError("No training data
found!")` when it is empty (lines 157-160). The downstream preprocessing,
stratified split, network fit and evaluation are opaque collaborators; the
successful run is abstracted to the sample count reported in the returned
metrics. -/
def train (dirs : List (String × List SampleFile)) : Except TrainError ℕ :=
  let Xy := load_dataset dirs
  if Xy.1.length = 0 then
    Except.error (TrainError.dataError "No training data found!")
  else
    Except.ok Xy.1.length

/-- The files `load_model` can probe for under a base path: for each network
format, `none` when the file does not exist, `some none` when it exists but
deserialization raises, `some (some net)` when it loads; and the
preprocessors pickle, `none` when absent or failing to unpickle. -/
structure ArtifactFiles where
  keras : Option (Option (List ℝ → List ℝ))
  h5 : Option (Option (List ℝ → List ℝ))
  preprocessors : Option (List String × (List ℝ → List ℝ))

/-- Tail of `load_model` after a network was assigned (landmark_model.py
lines 327-341): load the preprocessors and set `is_trained`, or hit the
outer handler, which resets `is_trained` and `model` (but not the encoder
or scaler) and returns false. -/
def loadPreprocessors (st : ModelState) (fs : ArtifactFiles) : Bool × ModelState :=
  match fs.preprocessors with
  | some (le, sc) =>
    (true, { st with label_encoder := some le, scaler := some sc, is_trained := true })
  | none =>
    (false, { st with is_trained := false, model := none })

/-- `ASLLandmarkModel.load_model` (landmark_model.py lines 306-341): probe
`{path}_model.keras` first, then `{path}_model.h5`; a deserialization
failure of an existing network file returns false from inside the inner
handler leaving the state untouched; a missing file raises
FileNotFoundError into the outer handler, which resets `is_trained` and
`model` and returns false; otherwise load the preprocessors. -/
def load_model (st : ModelState) (fs : ArtifactFiles) : Bool × ModelState :=
  match fs.keras with
  | some (some m) => loadPreprocessors { st with model := some m } fs
  | some none => (false, st)
  | none =>
    match fs.h5 with
    | some (some m) => loadPreprocessors { st with model := some m } fs
    | some none => (false, st)
    | none => (false, { st with is_trained := false, model := none })

/-- Per-class sample count, `np.bincount` of the encoded labels at one
class. -/
def classCount (y : List ℕ) (c : ℕ) : ℕ :=
  (y.filter (fun a => a = c)).length

/-- Modelled from the spec and the documented behavior of scikit-learn's
`compute_class_weight('balanced', classes, y)` as invoked by `train`
(landmark_model.py line 179), the library being outside the repository:
`weight(c) = n_samples / (n_classes * bincount(y)[c])`. -/
def balancedClassWeight (y : List ℕ) (classes : List ℕ) (c : ℕ) : ℚ :=
  (y.length : ℚ) / ((classes.length : ℚ) * (classCount y c : ℚ))

theorem argsort_perm (v : List ℝ) : List.Perm (argsort v) (List.range v.length) :=
  List.perm_insertionSort _ _

theorem argsort_length (v : List ℝ) : (argsort v).length = v.length := by
  rw [(argsort_perm v).length_eq, List.length_range]

theorem argsort_sorted (v : List ℝ) : (argsort v).Pairwise (leIdx v) :=
  List.sorted_insertionSort _ _

theorem argsort_nodup (v : List ℝ) : (argsort v).Nodup :=
  ((argsort_perm v).nodup_iff).mpr (List.nodup_range _)

theorem mem_argsort (v : List ℝ) {i : ℕ} : i ∈ argsort v ↔ i < v.length := by
  rw [(argsort_perm v).mem_iff, List.mem_range]

theorem topIndices_length (v : List ℝ) : (topIndices v).length = min 3 v.length := by
  simp only [topIndices, List.length_reverse, List.length_drop, argsort_length]
  omega

theorem mem_topIndices_lt (v : List ℝ) {i : ℕ} (h : i ∈ topIndices v) :
    i < v.length :=
  (mem_argsort v).mp (List.mem_of_mem_drop (List.mem_reverse.mp h))

/-- The top-3 index list is strictly descending in the (value, index)
lexicographic order: later entries have strictly smaller probability, or
equal probability and a strictly smaller index. -/
theorem topIndices_sorted (v : List ℝ) :
    (topIndices v).Pairwise (fun i j =>
      v.getD j 0 < v.getD i 0 ∨ (v.getD i 0 = v.getD j 0 ∧ j < i)) := by
  have hs : ((argsort v).drop ((argsort v).length - 3)).Pairwise (leIdx v) :=
    (argsort_sorted v).sublist (List.drop_sublist _ _)
  have hnd : ((argsort v).drop ((argsort v).length - 3)).Pairwise
      (fun i j : ℕ => i ≠ j) :=
    (argsort_nodup v).sublist (List.drop_sublist _ _)
  rw [topIndices, List.pairwise_reverse]
  exact (hs.and hnd).imp (by
    rintro a b ⟨hab, hne⟩
    rcases hab with h | ⟨h, h'⟩
    · exact Or.inl h
    · exact Or.inr ⟨h.symm, lt_of_le_of_ne h' hne⟩)

/-- Every position outside the top-3 list is dominated by every position in
it, in the same lexicographic order. -/
theorem topIndices_dominate (v : List ℝ) {j : ℕ} (hj : j < v.length)
    (hnot : j ∉ topIndices v) :
    ∀ i ∈ topIndices v,
      v.getD j 0 < v.getD i 0 ∨ (v.getD j 0 = v.getD i 0 ∧ j < i) := by
  intro i hi
  have hiD : i ∈ (argsort v).drop ((argsort v).length - 3) :=
    List.mem_reverse.mp hi
  have hjA : j ∈ argsort v := (mem_argsort v).mpr hj
  have hsplit := List.take_append_drop ((argsort v).length - 3) (argsort v)
  have hjT : j ∈ (argsort v).take ((argsort v).length - 3) := by
    have hjs : j ∈ (argsort v).take ((argsort v).length - 3) ++
        (argsort v).drop ((argsort v).length - 3) := by
      rw [hsplit]
      exact hjA
    rcases List.mem_append.mp hjs with hcase | hcase
    · exact hcase
    · exact absurd (List.mem_reverse.mpr hcase) hnot
  have hp : ((argsort v).take ((argsort v).length - 3) ++
      (argsort v).drop ((argsort v).length - 3)).Pairwise (leIdx v) := by
    rw [hsplit]
    exact argsort_sorted v
  have hle : leIdx v j i := (List.pairwise_append.mp hp).2.2 j hjT i hiD
  have hne : j ≠ i := fun he => hnot (he ▸ hi)
  rcases hle with h | ⟨h, h'⟩
  · exact Or.inl h
  · exact Or.inr ⟨h, lt_of_le_of_ne h' hne⟩

/-- The maximum property of `argmaxIdx`: no entry exceeds the entry at the
returned position. -/
theorem argmaxIdx_max (v : List ℝ) :
    ∀ j : ℕ, j < v.length → v.getD j 0 ≤ v.getD (argmaxIdx v) 0 := by
  induction v with
  | nil => intro j hj; simp at hj
  | cons x xs ih =>
    match xs with
    | [] =>
      intro j hj
      have hj1 : j = 0 := Nat.lt_one_iff.mp (by simpa using hj)
      subst hj1
      simp [argmaxIdx]
    | y :: ys =>
      intro j hj
      by_cases hx : x < (y :: ys).getD (argmaxIdx (y :: ys)) 0
      · have heq : argmaxIdx (x :: y :: ys) = argmaxIdx (y :: ys) + 1 := by
          simp only [argmaxIdx, if_pos hx]
        rw [heq]
        rcases j with _ | j
        · simpa using hx.le
        · simpa using ih j (by simpa using hj)
      · have heq : argmaxIdx (x :: y :: ys) = 0 := by
          simp only [argmaxIdx, if_neg hx]
        rw [heq]
        rcases j with _ | j
        · simp
        · have h1 : (y :: ys).getD j 0 ≤ (y :: ys).getD (argmaxIdx (y :: ys)) 0 :=
            ih j (by simpa using hj)
          have h2 : (y :: ys).getD (argmaxIdx (y :: ys)) 0 ≤ x := not_lt.mp hx
          simpa using h1.trans h2

/-- Reduction of `predict` on a well-formed trained state: the guard, the
flattening, the validation, and every opaque-collaborator lookup succeed, so
the call reaches the confidence threshold with the forward pass's
probability vector. -/
theorem predict_trained_eq (st : ModelState) (input : LandmarksInput)
    (m sc : List ℝ → List ℝ) (le : List String) (fv probs : List ℝ)
    (htr : st.is_trained = true) (hm : st.model = some m)
    (hsc : st.scaler = some sc) (hle : st.label_encoder = some le)
    (hin : flattenInput input = some fv) (h63 : fv.length = 63)
    (hp : m (sc (normalize_hand_pose fv)) = probs)
    (hne : probs ≠ []) (hlen : le.length = probs.length) :
    predict st input =
      (if probs.getD (argmaxIdx probs) 0 < 0.5 then
        ⟨"?", probs.getD (argmaxIdx probs) 0, none, some "Low confidence prediction",
          some ((topIndices probs).map fun i => (le.getD i "", probs.getD i 0)), none⟩
      else
        ⟨le.getD (argmaxIdx probs) "", probs.getD (argmaxIdx probs) 0, none, none,
          some ((topIndices probs).map fun i => (le.getD i "", probs.getD i 0)),
          some (rawHandSize fv)⟩) := by
  have hlen0 : probs.length = 0 → False := by
    intro h0
    exact hne (List.length_eq_zero.mp h0)
  have hall : (topIndices probs).all (fun i => decide (i < le.length)) = true := by
    rw [List.all_eq_true]
    intro i hi
    rw [decide_eq_true_eq, hlen]
    exact mem_topIndices_lt _ hi
  have htp : topPredictions le probs =
      some ((topIndices probs).map fun i => (le.getD i "", probs.getD i 0)) := by
    unfold topPredictions
    rw [if_pos hall]
  have hguard : ¬ (st.is_trained = false ∨ st.model.isNone = true) := by
    rw [htr, hm]
    simp
  unfold predict
  rw [if_neg hguard, hin]
  dsimp only []
  rw [if_neg (by rw [h63]; exact fun hcon => hcon rfl), hsc]
  dsimp only []
  rw [hm]
  dsimp only []
  rw [hp, if_neg hlen0, hle]
  dsimp only []
  rw [htp]

/-- Fixed trained state whose network reports probabilities (0.4, 0.3) for
two classes A and B: a low-confidence prediction. -/
noncomputable def lowState : ModelState :=
  ⟨true, some (fun _ => [0.4, 0.3]), some ["A", "B"], some id⟩

/-- A dictionary-shaped inference input built from `wpts`. -/
def wInput : LandmarksInput :=
  LandmarksInput.dicts wpts

theorem argmaxIdx_pair_left (a b : ℝ) (h : ¬ a < b) :
    argmaxIdx [a, b] = 0 := by
  show (if a < [b].getD (argmaxIdx [b]) 0 then argmaxIdx [b] + 1 else 0) = 0
  rw [if_neg]
  exact h

/-- C3 (amended): on a trained artifact, when the arg-max class probability
is below 0.5 `predict` returns the sentinel "?" with the confidence, the
note "Low confidence prediction" (the code's literal note text), and a
non-empty alternatives list; when it is at least 0.5 it returns the letter
decoded from the arg-max class, again with non-empty alternatives. The
arg-max probability bounds every class probability. -/
theorem predict_confidence_policy (st : ModelState) (input : LandmarksInput)
    (m sc : List ℝ → List ℝ) (le : List String) (fv probs : List ℝ)
    (htr : st.is_trained = true) (hm : st.model = some m)
    (hsc : st.scaler = some sc) (hle : st.label_encoder = some le)
    (hin : flattenInput input = some fv) (h63 : fv.length = 63)
    (hp : m (sc (normalize_hand_pose fv)) = probs)
    (hne : probs ≠ []) (hlen : le.length = probs.length) :
    (probs.getD (argmaxIdx probs) 0 < 0.5 →
      (predict st input).prediction = "?" ∧
      (predict st input).confidence = probs.getD (argmaxIdx probs) 0 ∧
      (predict st input).note = some "Low confidence prediction" ∧
      ∃ tp, (predict st input).top_predictions = some tp ∧ tp ≠ []) ∧
    ((0.5 : ℝ) ≤ probs.getD (argmaxIdx probs) 0 →
      (predict st input).prediction = le.getD (argmaxIdx probs) "" ∧
      (predict st input).confidence = probs.getD (argmaxIdx probs) 0 ∧
      ∃ tp, (predict st input).top_predictions = some tp ∧ tp ≠ []) ∧
    (∀ j : ℕ, j < probs.length → probs.getD j 0 ≤ probs.getD (argmaxIdx probs) 0) := by
  have heq := predict_trained_eq st input m sc le fv probs htr hm hsc hle hin h63 hp hne hlen
  have htpne : ((topIndices probs).map fun i => (le.getD i "", probs.getD i 0)) ≠ [] := by
    intro hcon
    have h0 : (topIndices probs).length = 0 := by
      have := congrArg List.length hcon
      simpa using this
    rw [topIndices_length] at h0
    have : probs.length ≠ 0 := fun hz => hne (List.length_eq_zero.mp hz)
    omega
  refine ⟨?_, ?_, ?_⟩
  · intro hc
    rw [heq, if_pos hc]
    exact ⟨rfl, rfl, rfl, _, rfl, htpne⟩
  · intro hc
    rw [heq, if_neg (not_lt.mpr hc)]
    exact ⟨rfl, rfl, _, rfl, htpne⟩
  · exact argmaxIdx_max probs

theorem predict_confidence_policy_witness :
    (predict lowState wInput).prediction = "?" ∧
    (predict lowState wInput).confidence = 0.4 ∧
    (predict lowState wInput).note = some "Low confidence prediction" := by
  have h := predict_confidence_policy lowState wInput (fun _ => [0.4, 0.3]) id
    ["A", "B"] (flattenPoints wpts) [0.4, 0.3] rfl rfl rfl rfl rfl rfl rfl
    (by simp) rfl
  have hidx : argmaxIdx [(0.4 : ℝ), 0.3] = 0 := argmaxIdx_pair_left _ _ (by norm_num)
  have hconf : ([(0.4 : ℝ), 0.3].getD (argmaxIdx [(0.4 : ℝ), 0.3]) 0 : ℝ) < 0.5 := by
    rw [hidx]
    norm_num
  obtain ⟨h1, h2, h3, -⟩ := h.1 hconf
  refine ⟨h1, ?_, h3⟩
  rw [h2, hidx]
  rfl

/-- C3 counterexample: a rejected low-confidence prediction whose note field
is the string "Low confidence prediction", not "low confidence" as the claim
states. -/
theorem predict_note_text_counterexample :
    (predict lowState wInput).confidence < 0.5 ∧
    (predict lowState wInput).prediction = "?" ∧
    (predict lowState wInput).note ≠ some "low confidence" := by
  have heq := predict_trained_eq lowState wInput (fun _ => [0.4, 0.3]) id
    ["A", "B"] (flattenPoints wpts) [0.4, 0.3] rfl rfl rfl rfl rfl rfl rfl
    (by simp) rfl
  have hidx : argmaxIdx [(0.4 : ℝ), 0.3] = 0 := argmaxIdx_pair_left _ _ (by norm_num)
  have hconf : ([(0.4 : ℝ), 0.3].getD (argmaxIdx [(0.4 : ℝ), 0.3]) 0 : ℝ) < 0.5 := by
    rw [hidx]
    norm_num
  rw [heq, if_pos hconf]
  refine ⟨hconf, rfl, ?_⟩
  intro hcon
  have : "Low confidence prediction" = "low confidence" := by
    have := Option.some.inj hcon
    exact this
  exact absurd this (by decide)

/-- C4 (amended): on a trained artifact, the returned alternatives are the
(letter, confidence) pairs of the up-to-3 lexicographically largest
(probability, class index) positions, ordered by descending confidence with
ties between equal probabilities broken in favor of the *higher* class index
(the code reverses an ascending stable argsort, which flips the tie order);
every class outside the list is dominated by every class in it. -/
theorem predict_top_alternatives (st : ModelState) (input : LandmarksInput)
    (m sc : List ℝ → List ℝ) (le : List String) (fv probs : List ℝ)
    (htr : st.is_trained = true) (hm : st.model = some m)
    (hsc : st.scaler = some sc) (hle : st.label_encoder = some le)
    (hin : flattenInput input = some fv) (h63 : fv.length = 63)
    (hp : m (sc (normalize_hand_pose fv)) = probs)
    (hne : probs ≠ []) (hlen : le.length = probs.length) :
    ∃ tp, (predict st input).top_predictions = some tp ∧
      tp = (topIndices probs).map (fun i => (le.getD i "", probs.getD i 0)) ∧
      tp.length = min 3 probs.length ∧
      (∀ i ∈ topIndices probs, i < probs.length) ∧
      (topIndices probs).Pairwise (fun i j =>
        probs.getD j 0 < probs.getD i 0 ∨
        (probs.getD i 0 = probs.getD j 0 ∧ j < i)) ∧
      (∀ j : ℕ, j < probs.length → j ∉ topIndices probs →
        ∀ i ∈ topIndices probs,
          probs.getD j 0 < probs.getD i 0 ∨
          (probs.getD j 0 = probs.getD i 0 ∧ j < i)) := by
  have heq := predict_trained_eq st input m sc le fv probs htr hm hsc hle hin h63 hp hne hlen
  have htop : (predict st input).top_predictions =
      some ((topIndices probs).map fun i => (le.getD i "", probs.getD i 0)) := by
    rw [heq]
    by_cases hc : probs.getD (argmaxIdx probs) 0 < 0.5
    · rw [if_pos hc]
    · rw [if_neg hc]
  refine ⟨_, htop, rfl, ?_, fun i hi => mem_topIndices_lt probs hi,
    topIndices_sorted probs, fun j hj hnot => topIndices_dominate probs hj hnot⟩
  rw [List.length_map, topIndices_length]

/-- Fixed trained state whose network reports probabilities (0.6, 0.4): a
confident prediction of class A. -/
noncomputable def okState : ModelState :=
  ⟨true, some (fun _ => [0.6, 0.4]), some ["A", "B"], some id⟩

theorem predict_top_alternatives_witness :
    ∃ tp, (predict okState wInput).top_predictions = some tp ∧ tp.length = 2 := by
  obtain ⟨tp, h1, -, h3, -⟩ := predict_top_alternatives okState wInput
    (fun _ => [0.6, 0.4]) id ["A", "B"] (flattenPoints wpts) [0.6, 0.4]
    rfl rfl rfl rfl rfl rfl rfl (by simp) rfl
  refine ⟨tp, h1, ?_⟩
  rw [h3]
  rfl

/-- Fixed trained state whose network reports the exact tie (0.5, 0.5). -/
noncomputable def tieState : ModelState :=
  ⟨true, some (fun _ => [0.5, 0.5]), some ["A", "B"], some id⟩

/-- C4 counterexample: with the tied probability vector (0.5, 0.5) the
alternatives list starts with class index 1 ("B") ahead of the
equal-probability class index 0 ("A"), refuting the claimed tie-break in
favor of the lower class index. -/
theorem predict_tie_break_counterexample :
    (predict tieState wInput).top_predictions =
      some [("B", (0.5 : ℝ)), ("A", (0.5 : ℝ))] ∧
    ([(0.5 : ℝ), 0.5] : List ℝ).getD 0 0 = ([(0.5 : ℝ), 0.5] : List ℝ).getD 1 0 := by
  have heq := predict_trained_eq tieState wInput (fun _ => [0.5, 0.5]) id
    ["A", "B"] (flattenPoints wpts) [0.5, 0.5] rfl rfl rfl rfl rfl rfl rfl
    (by simp) rfl
  have hidx : argmaxIdx [(0.5 : ℝ), 0.5] = 0 := argmaxIdx_pair_left _ _ (by norm_num)
  have hconf : ¬ (([(0.5 : ℝ), 0.5].getD (argmaxIdx [(0.5 : ℝ), 0.5]) 0 : ℝ) < 0.5) := by
    rw [hidx]
    show ¬ ((0.5 : ℝ) < 0.5)
    norm_num
  have hsort : argsort [(0.5 : ℝ), 0.5] = [0, 1] := by
    show List.insertionSort (leIdx [(0.5 : ℝ), 0.5]) (List.range 2) = [0, 1]
    rw [show List.range 2 = [0, 1] from rfl]
    show List.orderedInsert (leIdx [(0.5 : ℝ), 0.5]) 0 [1] = [0, 1]
    exact List.orderedInsert_of_le _ _ (Or.inr ⟨rfl, Nat.zero_le 1⟩)
  have htop : topIndices [(0.5 : ℝ), 0.5] = [1, 0] := by
    unfold topIndices
    rw [hsort]
    rfl
  rw [heq, if_neg hconf]
  constructor
  · show some (((topIndices [(0.5 : ℝ), 0.5]).map
      fun i => ((["A", "B"] : List String).getD i "", ([(0.5 : ℝ), 0.5] : List ℝ).getD i 0))) = _
    rw [htop]
    rfl
  · rfl

/-- C7 (amended): `predict` returns the distinct "Model not trained"
error outcome whenever no trained artifact is loaded; on a trained state it
returns the distinct "Expected 63 features" validation outcome exactly for
inputs whose flattened length differs from 63 (the point count itself is
never checked), and on a well-formed trained state a 63-length input
produces a non-error result. -/
theorem predict_error_taxonomy (st : ModelState) (input : LandmarksInput) :
    ((st.is_trained = false ∨ st.model = none) →
      predict st input = errResult "Model not trained") ∧
    (∀ fv : List ℝ, st.is_trained = true → st.model.isSome →
      flattenInput input = some fv → fv.length ≠ 63 →
      predict st input = errResult ("Expected 63 features, got " ++ toString fv.length)) ∧
    (∀ (m sc : List ℝ → List ℝ) (le : List String) (fv probs : List ℝ),
      st.is_trained = true → st.model = some m → st.scaler = some sc →
      st.label_encoder = some le → flattenInput input = some fv →
      fv.length = 63 → m (sc (normalize_hand_pose fv)) = probs → probs ≠ [] →
      le.length = probs.length → (predict st input).error = none) := by
  refine ⟨?_, ?_, ?_⟩
  · intro h
    unfold predict
    rw [if_pos]
    rcases h with h | h
    · exact Or.inl h
    · exact Or.inr (by rw [h]; rfl)
  · intro fv htr hm hin hlen
    obtain ⟨m, hm⟩ := Option.isSome_iff_exists.mp hm
    have hguard : ¬ (st.is_trained = false ∨ st.model.isNone = true) := by
      rw [htr, hm]
      simp
    unfold predict
    rw [if_neg hguard, hin]
    dsimp only []
    rw [if_pos hlen]
  · intro m sc le fv probs htr hm hsc hle hin h63 hp hne hlen
    rw [predict_trained_eq st input m sc le fv probs htr hm hsc hle hin h63 hp hne hlen]
    by_cases hc : probs.getD (argmaxIdx probs) 0 < 0.5
    · rw [if_pos hc]
    · rw [if_neg hc]

theorem predict_error_taxonomy_witness :
    predict freshState wInput = errResult "Model not trained" ∧
    predict lowState (LandmarksInput.dicts [(0, 0, 0), (0, 0, 0)]) =
      errResult ("Expected 63 features, got " ++ toString 6) ∧
    (predict lowState wInput).error = none := by
  refine ⟨(predict_error_taxonomy freshState wInput).1 (Or.inl rfl), ?_, ?_⟩
  · exact (predict_error_taxonomy lowState
      (LandmarksInput.dicts [(0, 0, 0), (0, 0, 0)])).2.1
      [0, 0, 0, 0, 0, 0] rfl rfl rfl (by norm_num)
  · exact (predict_error_taxonomy lowState wInput).2.2 (fun _ => [0.4, 0.3]) id
      ["A", "B"] (flattenPoints wpts) [0.4, 0.3] rfl rfl rfl rfl rfl rfl rfl
      (by simp) rfl

/-- Fixed trained state for the point-count counterexample: probabilities
(0.6, 0.4) for classes A and B. -/
noncomputable def nineState : ModelState :=
  ⟨true, some (fun _ => [0.6, 0.4]), some ["A", "B"], some id⟩

/-- A list-format input of 9 "points" of 7 coordinates each: 63 numbers in
total but a point count of 9. -/
def nineInput : LandmarksInput :=
  LandmarksInput.lists (List.replicate 9 (List.replicate 7 (0 : ℝ)))

/-- C7 counterexample: the 9-point, 7-coordinates-per-point list input
flattens to 63 numbers and sails through `predict` to a successful letter
prediction, refuting the claim that every input with point count other than
21 fails validation. -/
theorem predict_point_count_counterexample :
    (List.replicate 9 (List.replicate 7 (0 : ℝ))).length = 9 ∧
    (predict nineState nineInput).error = none ∧
    (predict nineState nineInput).prediction = "A" := by
  have heq := predict_trained_eq nineState nineInput (fun _ => [0.6, 0.4]) id
    ["A", "B"] (List.replicate 9 (List.replicate 7 (0 : ℝ))).flatten [0.6, 0.4]
    rfl rfl rfl rfl rfl rfl rfl (by simp) rfl
  have hidx : argmaxIdx [(0.6 : ℝ), 0.4] = 0 := argmaxIdx_pair_left _ _ (by norm_num)
  have hconf : ¬ (([(0.6 : ℝ), 0.4].getD (argmaxIdx [(0.6 : ℝ), 0.4]) 0 : ℝ) < 0.5) := by
    rw [hidx]
    show ¬ ((0.6 : ℝ) < 0.5)
    norm_num
  rw [heq, if_neg hconf]
  refine ⟨rfl, rfl, ?_⟩
  rw [hidx]
  rfl

theorem flattenPoints_eq_flatten (ps : List (ℝ × ℝ × ℝ)) :
    flattenPoints ps = (ps.map fun p => [p.1, p.2.1, p.2.2]).flatten := by
  induction ps with
  | nil => rfl
  | cons p ps ih => simp [flattenPoints, ih]

/-- C10: on any model state, `predict` treats a list of `{x, y, z}` mappings
and the corresponding list of `[x, y, z]` triple lists identically — both
shapes flatten to the same 63-feature vector before any downstream
processing. -/
theorem predict_input_shapes (st : ModelState) (pts : List (ℝ × ℝ × ℝ))
    (h21 : pts.length = 21) :
    predict st (LandmarksInput.dicts pts) =
      predict st (LandmarksInput.lists (pts.map fun p => [p.1, p.2.1, p.2.2])) := by
  have hflat : flattenInput (LandmarksInput.dicts pts) =
      flattenInput (LandmarksInput.lists (pts.map fun p => [p.1, p.2.1, p.2.2])) := by
    match pts with
    | [] => rfl
    | p :: ps =>
      show some (flattenPoints (p :: ps)) =
        some (((p :: ps).map fun p => [p.1, p.2.1, p.2.2]).flatten)
      rw [flattenPoints_eq_flatten]
  unfold predict
  rw [hflat]

theorem predict_input_shapes_witness :
    predict lowState (LandmarksInput.dicts wpts) =
      predict lowState (LandmarksInput.lists (wpts.map fun p => [p.1, p.2.1, p.2.2])) :=
  predict_input_shapes lowState wpts rfl

theorem loadFiles_rows (letter : String) (files : List SampleFile) :
    ∀ row ∈ (loadFiles letter files).1, row.length = 63 := by
  induction files with
  | nil =>
    intro row hr
    simp [loadFiles] at hr
  | cons f rest ih =>
    intro row hr
    match f with
    | none => exact ih row hr
    | some lms =>
      simp only [loadFiles] at hr
      by_cases h63 : (flattenPoints lms).length = 63
      · rw [if_pos h63] at hr
        rcases List.mem_cons.mp hr with h | h
        · rw [h]
          exact h63
        · exact ih row h
      · rw [if_neg h63] at hr
        exact ih row hr

theorem load_dataset_rows (dirs : List (String × List SampleFile)) :
    ∀ row ∈ (load_dataset dirs).1, row.length = 63 := by
  induction dirs with
  | nil =>
    intro row hr
    simp [load_dataset] at hr
  | cons d rest ih =>
    intro row hr
    obtain ⟨letter, files⟩ := d
    simp only [load_dataset] at hr
    rcases List.mem_append.mp hr with h | h
    · exact loadFiles_rows letter files row h
    · exact ih row h

/-- C6: `load_dataset` skips unparseable files and files whose flattened
landmark vector is not 63 long, never failing on them; every returned
feature row has length exactly 63; and a letter directory holding 10 valid
21-point files, one 18-point file and one unparseable file yields exactly 10
rows. -/
theorem load_dataset_spec :
    (∀ dirs : List (String × List SampleFile), ∀ row ∈ (load_dataset dirs).1,
      row.length = 63) ∧
    (load_dataset [("A",
      List.replicate 10 (some (List.replicate 21 ((0 : ℝ), (0 : ℝ), (0 : ℝ)))) ++
      [some (List.replicate 18 ((0 : ℝ), (0 : ℝ), (0 : ℝ))), none])]).1.length = 10 :=
  ⟨fun dirs => load_dataset_rows dirs, rfl⟩

theorem load_dataset_spec_witness :
    flattenPoints (List.replicate 21 ((0 : ℝ), (0 : ℝ), (0 : ℝ))) ∈
      (load_dataset [("A", [some (List.replicate 21 ((0 : ℝ), (0 : ℝ), (0 : ℝ)))])]).1 ∧
    (flattenPoints (List.replicate 21 ((0 : ℝ), (0 : ℝ), (0 : ℝ)))).length = 63 := by
  have hmem : flattenPoints (List.replicate 21 ((0 : ℝ), (0 : ℝ), (0 : ℝ))) ∈
      (load_dataset [("A", [some (List.replicate 21 ((0 : ℝ), (0 : ℝ), (0 : ℝ)))])]).1 := by
    show flattenPoints (List.replicate 21 ((0 : ℝ), (0 : ℝ), (0 : ℝ))) ∈
      [flattenPoints (List.replicate 21 ((0 : ℝ), (0 : ℝ), (0 : ℝ)))]
    exact List.mem_singleton_self _
  exact ⟨hmem, load_dataset_spec.1 _ _ hmem⟩

/-- C8: `train` fails with the DataError "No training data found!" exactly
when the dataset loaded from the directory is empty, and on an empty dataset
it never produces a result. -/
theorem train_empty_dataset (dirs : List (String × List SampleFile)) :
    (train dirs = Except.error (TrainError.dataError "No training data found!") ↔
      (load_dataset dirs).1 = []) ∧
    ∀ n : ℕ, (load_dataset dirs).1 = [] → train dirs ≠ Except.ok n := by
  constructor
  · constructor
    · intro h
      by_contra hne
      have hlen : ¬ (load_dataset dirs).1.length = 0 :=
        fun h0 => hne (List.length_eq_zero.mp h0)
      unfold train at h
      rw [if_neg hlen] at h
      exact absurd h (by simp)
    · intro h
      unfold train
      rw [if_pos (by rw [h]; rfl)]
  · intro n h hcon
    unfold train at hcon
    rw [if_pos (by rw [h]; rfl)] at hcon
    exact absurd hcon (by simp)

theorem train_empty_dataset_witness :
    (load_dataset ([] : List (String × List SampleFile))).1 = [] ∧
    train ([] : List (String × List SampleFile)) ≠ Except.ok 0 :=
  ⟨rfl, (train_empty_dataset []).2 0 rfl⟩

/-- C5: the balanced class weight of a class with a nonzero count, times
`K * n_c`, recovers the total sample count `N` (that is, the weight is
`N / (K * n_c)`); the weights of two classes are inversely proportional to
their counts; and for counts 10 and 40 out of N = 50 with K = 2 the weight
ratio is exactly 4. -/
theorem balancedClassWeight_spec (y : List ℕ) (classes : List ℕ) (a b : ℕ)
    (ha : classCount y a ≠ 0) (hb : classCount y b ≠ 0)
    (hK : classes.length ≠ 0) :
    balancedClassWeight y classes a *
        ((classes.length : ℚ) * (classCount y a : ℚ)) = (y.length : ℚ) ∧
    balancedClassWeight y classes a * (classCount y a : ℚ) =
      balancedClassWeight y classes b * (classCount y b : ℚ) ∧
    balancedClassWeight (List.replicate 10 0 ++ List.replicate 40 1) [0, 1] 0 /
      balancedClassWeight (List.replicate 10 0 ++ List.replicate 40 1) [0, 1] 1 = 4 := by
  have hKQ : (classes.length : ℚ) ≠ 0 := by exact_mod_cast hK
  have haQ : (classCount y a : ℚ) ≠ 0 := by exact_mod_cast ha
  have hbQ : (classCount y b : ℚ) ≠ 0 := by exact_mod_cast hb
  refine ⟨?_, ?_, ?_⟩
  · unfold balancedClassWeight
    field_simp
  · unfold balancedClassWeight
    field_simp
    ring
  · have c0 : classCount (List.replicate 10 0 ++ List.replicate 40 1) 0 = 10 := by decide
    have c1 : classCount (List.replicate 10 0 ++ List.replicate 40 1) 1 = 40 := by decide
    have hlen : (List.replicate 10 0 ++ List.replicate 40 1).length = 50 := by decide
    unfold balancedClassWeight
    rw [c0, c1, hlen]
    norm_num

theorem balancedClassWeight_spec_witness :
    classCount (List.replicate 10 0 ++ List.replicate 40 1) 0 ≠ 0 ∧
    balancedClassWeight (List.replicate 10 0 ++ List.replicate 40 1) [0, 1] 0 /
      balancedClassWeight (List.replicate 10 0 ++ List.replicate 40 1) [0, 1] 1 = 4 :=
  ⟨by decide, (balancedClassWeight_spec (List.replicate 10 0 ++ List.replicate 40 1)
    [0, 1] 0 1 (by decide) (by decide) (by decide)).2.2⟩

/-- C9 (amended): `load_model` always returns a Boolean (it never raises); a
successful load sets the Trained flag; and on a fresh Untrained instance
every failed load leaves the state exactly `freshState`, with no partial
state. (A failed deserialization of an existing network file leaves the
prior state untouched, so a previously Trained instance can stay Trained —
see the counterexample.) -/
theorem load_model_spec (st : ModelState) (fs : ArtifactFiles) :
    ((load_model st fs).1 = true → (load_model st fs).2.is_trained = true) ∧
    (st = freshState → (load_model st fs).1 = false →
      (load_model st fs).2 = freshState) := by
  obtain ⟨k, h5f, pre⟩ := fs
  constructor
  · intro hsucc
    rcases k with _ | (_ | m)
    · rcases h5f with _ | (_ | m)
      · exact absurd hsucc (by simp [load_model])
      · exact absurd hsucc (by simp [load_model])
      · rcases pre with _ | ⟨le, sc⟩
        · exact absurd hsucc (by simp [load_model, loadPreprocessors])
        · rfl
    · exact absurd hsucc (by simp [load_model])
    · rcases pre with _ | ⟨le, sc⟩
      · exact absurd hsucc (by simp [load_model, loadPreprocessors])
      · rfl
  · intro hfresh hfail
    subst hfresh
    rcases k with _ | (_ | m)
    · rcases h5f with _ | (_ | m)
      · rfl
      · rfl
      · rcases pre with _ | ⟨le, sc⟩
        · rfl
        · exact absurd hfail (by simp [load_model, loadPreprocessors])
    · rfl
    · rcases pre with _ | ⟨le, sc⟩
      · rfl
      · exact absurd hfail (by simp [load_model, loadPreprocessors])

theorem load_model_spec_witness :
    (load_model freshState ⟨none, none, none⟩).1 = false ∧
    (load_model freshState ⟨none, none, none⟩).2 = freshState :=
  ⟨rfl, (load_model_spec freshState ⟨none, none, none⟩).2 rfl rfl⟩

/-- A previously Trained state: flag set, with a network, classes and scaler
loaded. -/
noncomputable def trainedState : ModelState :=
  ⟨true, some (fun v => v), some ["A"], some (fun v => v)⟩

/-- C9 counterexample: a keras network file that exists but fails to
deserialize makes `load_model` return false from the inner handler with the
state untouched, so a previously Trained instance stays Trained instead of
being left Untrained. -/
theorem load_model_stays_trained_counterexample :
    (load_model trainedState ⟨some none, none, none⟩).1 = false ∧
    (load_model trainedState ⟨some none, none, none⟩).2.is_trained = true :=
  ⟨rfl, rfl⟩

end SpellWithASL
